import Mathlib

/-
Shallow embedding of src/thor/mod.rs (THOR patch-archive decoder).

Bytes are modelled as Nat (values < 256 on real inputs), byte slices as
List Nat, decoded text as the List Nat of unicode code points.  nom's
IResult is modelled by the inductive IResult below; the three nom error
classes Err::Error (recoverable), Err::Failure (fatal) and Err::Incomplete
are kept apart because the source mixes streaming macro combinators
(tag!, take!, take_str!: Incomplete on short input) with complete number
functions (le_u8, le_u32, le_i16, le_i32 from nom::number::complete:
recoverable error on short input), and fold_many1! treats them
differently.  zlib inflation (flate2 ZlibDecoder::read_to_end, an external
collaborator per the spec) is a parameter z : List Nat -> Option (List Nat)
throughout.
-/

/-- NomErr models nom's three error classes: Err::Error (recoverable),
Err::Failure (fatal), Err::Incomplete (needs more input). -/
inductive NomErr where
  | error
  | failure
  | incomplete
deriving DecidableEq

/-- IResult models nom's IResult on byte slices: success carries the parsed
value and the remaining input. -/
inductive IResult (α : Type) where
  | ok : α → List Nat → IResult α
  | err : NomErr → IResult α
deriving DecidableEq

/-- pbind models nom do_parse! sequencing: run the first step, feed the rest
of the input to the continuation, propagate errors. -/
def pbind {α β : Type} : IResult α → (α → List Nat → IResult β) → IResult β
  | .ok a r, f => f a r
  | .err e, _ => .err e

/-- le_u8 models nom::number::complete::le_u8 (recoverable error at end of
input). -/
def le_u8 : List Nat → IResult Nat
  | [] => .err .error
  | b :: r => .ok b r

/-- le32val is the little-endian value of four bytes. -/
def le32val (b0 b1 b2 b3 : Nat) : Nat := b0 + 256 * b1 + 65536 * b2 + 16777216 * b3

/-- le_u32 models nom::number::complete::le_u32. -/
def le_u32 : List Nat → IResult Nat
  | b0 :: b1 :: b2 :: b3 :: r => .ok (le32val b0 b1 b2 b3) r
  | _ => .err .error

/-- toI16 reinterprets a 16-bit unsigned value as a signed i16. -/
def toI16 (v : Nat) : Int := if v < 32768 then (v : Int) else (v : Int) - 65536

/-- i16val is the signed little-endian value of two bytes. -/
def i16val (b0 b1 : Nat) : Int := toI16 (b0 + 256 * b1)

/-- le_i16 models nom::number::complete::le_i16. -/
def le_i16 : List Nat → IResult Int
  | b0 :: b1 :: r => .ok (i16val b0 b1) r
  | _ => .err .error

/-- toI32 reinterprets a 32-bit unsigned value as a signed i32. -/
def toI32 (v : Nat) : Int := if v < 2147483648 then (v : Int) else (v : Int) - 4294967296

/-- le_i32 models nom::number::complete::le_i32. -/
def le_i32 : List Nat → IResult Int
  | b0 :: b1 :: b2 :: b3 :: r => .ok (toI32 (le32val b0 b1 b2 b3)) r
  | _ => .err .error

/-- i32_as_usize models a Rust sign-extending cast of an i32 value to
usize/u64 (two's-complement reinterpretation modulo 2^64); used for the
source's `as usize` and `as u64` casts on le_i32 results. -/
def i32_as_usize (v : Int) : Nat := (v % 18446744073709551616).toNat

/-- tag models nom's streaming tag! macro: a byte mismatch is a recoverable
error, running out of input before the tag ends is Incomplete. -/
def tag : List Nat → List Nat → IResult Unit
  | [], i => .ok () i
  | _ :: _, [] => .err .incomplete
  | t :: ts, b :: bs => if b = t then tag ts bs else .err .error

/-- takeB models nom's streaming take! macro: Incomplete when fewer than the
requested bytes remain. -/
def takeB : Nat → List Nat → IResult (List Nat)
  | 0, i => .ok [] i
  | _ + 1, [] => .err .incomplete
  | n + 1, b :: bs =>
    match takeB n bs with
    | .ok xs r => .ok (b :: xs) r
    | .err e => .err e

/-- utf8ContLo gives the lower bound of the first continuation byte for a
given UTF-8 lead byte (per the table used by Rust's str::from_utf8). -/
def utf8ContLo (b : Nat) : Nat := if b = 224 then 160 else if b = 240 then 144 else 128

/-- utf8ContHi gives the upper bound of the first continuation byte for a
given UTF-8 lead byte (per the table used by Rust's str::from_utf8). -/
def utf8ContHi (b : Nat) : Nat := if b = 237 then 159 else if b = 244 then 143 else 191

/-- utf8Decode models Rust str::from_utf8 followed by reading code points:
strict UTF-8 validation (rejects overlong forms, surrogates and values past
U+10FFFF), returning the code-point sequence or failing. -/
def utf8Decode : List Nat → Option (List Nat)
  | [] => some []
  | b :: bs =>
    if b ≤ 127 then (utf8Decode bs).map (fun t => b :: t)
    else if 194 ≤ b ∧ b ≤ 223 then
      match bs with
      | c1 :: bs2 =>
        if 128 ≤ c1 ∧ c1 ≤ 191 then
          (utf8Decode bs2).map (fun t => ((b - 192) * 64 + (c1 - 128)) :: t)
        else none
      | [] => none
    else if 224 ≤ b ∧ b ≤ 239 then
      match bs with
      | c1 :: c2 :: bs3 =>
        if (utf8ContLo b ≤ c1 ∧ c1 ≤ utf8ContHi b) ∧ (128 ≤ c2 ∧ c2 ≤ 191) then
          (utf8Decode bs3).map (fun t => ((b - 224) * 4096 + (c1 - 128) * 64 + (c2 - 128)) :: t)
        else none
      | _ => none
    else if 240 ≤ b ∧ b ≤ 244 then
      match bs with
      | c1 :: c2 :: c3 :: bs4 =>
        if (utf8ContLo b ≤ c1 ∧ c1 ≤ utf8ContHi b) ∧ (128 ≤ c2 ∧ c2 ≤ 191) ∧ (128 ≤ c3 ∧ c3 ≤ 191) then
          (utf8Decode bs4).map
            (fun t => ((b - 240) * 262144 + (c1 - 128) * 4096 + (c2 - 128) * 64 + (c3 - 128)) :: t)
        else none
      | _ => none
    else none

/-- win1252_byte is the WHATWG windows-1252 single-byte decode table, as used
by the rust-encoding crate behind encoding_from_whatwg_label("windows-1252").
Every byte value below 256 is mapped (the standard maps 0x81, 0x8D, 0x8F,
0x90, 0x9D to the matching C1 controls), so strict decoding of real bytes
never fails. -/
def win1252_byte (b : Nat) : Option Nat :=
  if b ≤ 127 then some b
  else if 160 ≤ b ∧ b ≤ 255 then some b
  else
    match b with
    | 128 => some 8364
    | 129 => some 129
    | 130 => some 8218
    | 131 => some 402
    | 132 => some 8222
    | 133 => some 8230
    | 134 => some 8224
    | 135 => some 8225
    | 136 => some 710
    | 137 => some 8240
    | 138 => some 352
    | 139 => some 8249
    | 140 => some 338
    | 141 => some 141
    | 142 => some 381
    | 143 => some 143
    | 144 => some 144
    | 145 => some 8216
    | 146 => some 8217
    | 147 => some 8220
    | 148 => some 8221
    | 149 => some 8226
    | 150 => some 8211
    | 151 => some 8212
    | 152 => some 732
    | 153 => some 8482
    | 154 => some 353
    | 155 => some 8250
    | 156 => some 339
    | 157 => some 157
    | 158 => some 382
    | 159 => some 376
    | _ => none

/-- string_from_win_1252 models the source's string_from_win_1252: strict
windows-1252 decoding of a byte slice (DecoderTrap::Strict). -/
def string_from_win_1252 : List Nat → Option (List Nat)
  | [] => some []
  | b :: bs => (win1252_byte b).bind fun c => (string_from_win_1252 bs).map fun t => c :: t

/-- take_str models nom's take_str! macro: take n bytes, then validate and
decode them as UTF-8 (map_res with str::from_utf8; decode failure is a
recoverable MapRes error). -/
def take_str (n : Nat) (i : List Nat) : IResult (List Nat) :=
  match takeB n i with
  | .ok bs r =>
    match utf8Decode bs with
    | some s => .ok s r
    | none => .err .error
  | .err e => .err e

/-- take_string_ansi models the source's take_string_ansi! macro: take n
bytes, then strict windows-1252 decode (map_res with string_from_win_1252). -/
def take_string_ansi (n : Nat) (i : List Nat) : IResult (List Nat) :=
  match takeB n i with
  | .ok bs r =>
    match string_from_win_1252 bs with
    | some s => .ok s r
    | none => .err .error
  | .err e => .err e

inductive ThorMode where
  | SingleFile
  | MultipleFiles
  | Invalid
deriving DecidableEq

structure ThorHeader where
  use_grf_merging : Bool
  file_count : Nat
  mode : ThorMode
  target_grf_name : List Nat
deriving DecidableEq

structure SingleFileTableDesc where
  file_table_offset : Nat
deriving DecidableEq

structure MultipleFilesTableDesc where
  file_table_compressed_size : Nat
  file_table_offset : Nat
deriving DecidableEq

inductive ThorTable where
  | SingleFile : SingleFileTableDesc → ThorTable
  | MultipleFiles : MultipleFilesTableDesc → ThorTable
deriving DecidableEq

structure ThorEntry where
  size_compressed : Nat
  size_decompressed : Nat
  relative_path : List Nat
  is_removed : Bool
  offset : Nat
deriving DecidableEq

structure ThorContainer where
  header : ThorHeader
  table : ThorTable
  entries : List (List Nat × ThorEntry)
deriving DecidableEq

/-- i16_to_mode models the source's i16_to_mode. -/
def i16_to_mode (i : Int) : ThorMode :=
  if i = 33 then ThorMode.SingleFile
  else if i = 48 then ThorMode.MultipleFiles
  else ThorMode.Invalid

/-- is_file_removed models the source's flags check `(flags & 0b1) == 1`. -/
def is_file_removed (flags : Nat) : Bool := flags % 2 = 1

/-- HEADER_MAGIC is the byte sequence of "ASSF (C) 2007 Aeomin DEV". -/
def HEADER_MAGIC : List Nat :=
  [65, 83, 83, 70, 32, 40, 67, 41, 32, 50, 48, 48, 55, 32, 65, 101, 111, 109, 105, 110, 32, 68, 69, 86]

/-- decode_file_count models `(file_count - 1) as usize` on the u32 wire
value (u32 subtraction wraps modulo 2^32). -/
def decode_file_count (wire : Nat) : Nat := (wire + 4294967295) % 4294967296

/-- parse_thor_header models the source's parse_thor_header. -/
def parse_thor_header (i : List Nat) : IResult ThorHeader :=
  pbind (tag HEADER_MAGIC i) fun _ i1 =>
  pbind (le_u8 i1) fun use_grf_merging i2 =>
  pbind (le_u32 i2) fun file_count i3 =>
  pbind (le_i16 i3) fun mode i4 =>
  pbind (le_u8 i4) fun target_grf_name_size i5 =>
  pbind (take_str target_grf_name_size i5) fun target_grf_name i6 =>
  .ok { use_grf_merging := use_grf_merging == 1
      , file_count := decode_file_count file_count
      , mode := i16_to_mode mode
      , target_grf_name := target_grf_name } i6

/-- parse_single_file_table models the source's parse_single_file_table. -/
def parse_single_file_table (i : List Nat) : IResult SingleFileTableDesc :=
  pbind (takeB 1 i) fun _ i1 => .ok { file_table_offset := 0 } i1

/-- parse_multiple_files_table models the source's parse_multiple_files_table
(le_i32 sizes cast with `as usize` and `as u64`). -/
def parse_multiple_files_table (i : List Nat) : IResult MultipleFilesTableDesc :=
  pbind (le_i32 i) fun file_table_compressed_size i1 =>
  pbind (le_i32 i1) fun file_table_offset i2 =>
  .ok { file_table_compressed_size := i32_as_usize file_table_compressed_size
      , file_table_offset := i32_as_usize file_table_offset } i2

/-- parse_single_file_entry models the source's parse_single_file_entry. -/
def parse_single_file_entry (i : List Nat) : IResult ThorEntry :=
  pbind (le_i32 i) fun size_compressed i1 =>
  pbind (le_i32 i1) fun size_decompressed i2 =>
  pbind (le_u8 i2) fun relative_path_size i3 =>
  pbind (take_string_ansi relative_path_size i3) fun relative_path i4 =>
  .ok { size_compressed := i32_as_usize size_compressed
      , size_decompressed := i32_as_usize size_decompressed
      , relative_path := relative_path
      , is_removed := false
      , offset := 0 } i4

/-- take_if_not_removed_u32 models take_if_not_removed!(le_u32, flags). -/
def take_if_not_removed_u32 (flags : Nat) (i : List Nat) : IResult Nat :=
  if is_file_removed flags then .ok 0 i else le_u32 i

/-- take_if_not_removed_i32 models take_if_not_removed!(le_i32, flags). -/
def take_if_not_removed_i32 (flags : Nat) (i : List Nat) : IResult Int :=
  if is_file_removed flags then .ok 0 i else le_i32 i

/-- parse_multiple_files_entry models the source's parse_multiple_files_entry. -/
def parse_multiple_files_entry (i : List Nat) : IResult ThorEntry :=
  pbind (le_u8 i) fun relative_path_size i1 =>
  pbind (take_string_ansi relative_path_size i1) fun relative_path i2 =>
  pbind (le_u8 i2) fun flags i3 =>
  pbind (take_if_not_removed_u32 flags i3) fun offset i4 =>
  pbind (take_if_not_removed_i32 flags i4) fun size_compressed i5 =>
  pbind (take_if_not_removed_i32 flags i5) fun size_decompressed i6 =>
  .ok { size_compressed := i32_as_usize size_compressed
      , size_decompressed := i32_as_usize size_decompressed
      , relative_path := relative_path
      , is_removed := is_file_removed flags
      , offset := offset } i6

/-- alookup models HashMap::get on the path-to-entry map (first matching key;
keys are kept unique by insert_entry). -/
def alookup (k : List Nat) (m : List (List Nat × ThorEntry)) : Option ThorEntry :=
  (m.find? fun p => decide (p.1 = k)).map fun p => p.2

/-- insert_entry models the fold body `acc.insert(item.relative_path.clone(), item)`:
HashMap::insert replaces the value when the key is present, otherwise adds a
new binding. -/
def insert_entry (m : List (List Nat × ThorEntry)) (e : ThorEntry) : List (List Nat × ThorEntry) :=
  if (alookup e.relative_path m).isSome then
    m.map fun p => if p.1 = e.relative_path then (e.relative_path, e) else p
  else
    m ++ [(e.relative_path, e)]

/-- entryFold folds a decoded entry sequence into the path-to-entry map, in
decode order, exactly as fold_many1! does with HashMap::insert. -/
def entryFold (es : List ThorEntry) : List (List Nat × ThorEntry) :=
  es.foldl insert_entry []

/-- entriesLoop is the repetition part of fold_many1!: keep applying
parse_multiple_files_entry, stop (keeping the leftover input) when it fails
with a recoverable error, propagate Failure and Incomplete.  The fuel only
bounds recursion depth; every successful entry parse consumes at least two
bytes (see entry_progress and entriesLoop_fuel below), so with fuel larger
than the input length the bound is never hit. -/
def entriesLoop : Nat → List Nat → IResult (List ThorEntry)
  | 0, i => .ok [] i
  | fuel + 1, i =>
    match parse_multiple_files_entry i with
    | .err .error => .ok [] i
    | .err e => .err e
    | .ok e r =>
      match entriesLoop fuel r with
      | .ok es rest => .ok (e :: es) rest
      | .err e2 => .err e2

/-- parse_multiple_files_entries models fold_many1!(parse_multiple_files_entry,
HashMap::new(), insert): the first entry must parse (a recoverable failure of
the whole fold otherwise), then entries are folded greedily. -/
def parse_multiple_files_entries (i : List Nat) : IResult (List (List Nat × ThorEntry)) :=
  match parse_multiple_files_entry i with
  | .err e => .err e
  | .ok e r =>
    match entriesLoop (r.length + 1) r with
    | .ok es rest => .ok (entryFold (e :: es)) rest
    | .err e2 => .err e2

/-- parse_thor_patch models the source's parse_thor_patch.  z is the zlib
inflation collaborator (ZlibDecoder::read_to_end over the tail slice).
consumed_bytes is the pointer difference input.len - rest.len.  The source
indexes `&output[rebased..]` without a bound check and would panic when the
rebased offset exceeds the remaining length; that is modelled as a fatal
failure. -/
def parse_thor_patch (z : List Nat → Option (List Nat)) (input : List Nat) : IResult ThorContainer :=
  pbind (parse_thor_header input) fun header i1 =>
  match header.mode with
  | ThorMode.Invalid => .err .failure
  | ThorMode.SingleFile =>
    pbind (parse_single_file_table i1) fun table i2 =>
    pbind (parse_single_file_entry i2) fun entry i3 =>
    .ok { header := header
        , table := ThorTable.SingleFile table
        , entries := [(entry.relative_path, entry)] } i3
  | ThorMode.MultipleFiles =>
    pbind (parse_multiple_files_table i1) fun table i2 =>
    if table.file_table_offset < input.length - i2.length then .err .failure
    else if table.file_table_offset - (input.length - i2.length) ≤ i2.length then
      match z (i2.drop (table.file_table_offset - (input.length - i2.length))) with
      | none => .err .failure
      | some inflated =>
        match parse_multiple_files_entries inflated with
        | .ok entries _ => .ok { header := header
                               , table := ThorTable.MultipleFiles
                                   { file_table_compressed_size := table.file_table_compressed_size
                                   , file_table_offset := table.file_table_offset - (input.length - i2.length) }
                               , entries := entries } []
        | .err _ => .err .failure
    else .err .failure

/-- ThorArchive models the archive handle: the owned reader (its bytes and
cursor position) plus the parsed container. -/
structure ThorArchive where
  src : List Nat
  pos : Nat
  container : ThorContainer
deriving DecidableEq

/-- thor_archive_new models ThorArchive::new (the spec's open): read the whole
source, parse it, fail on any parse error.  After read_to_end the cursor is at
the end of the source. -/
def thor_archive_new (z : List Nat → Option (List Nat)) (bytes : List Nat) : Option ThorArchive :=
  match parse_thor_patch z bytes with
  | .ok c _ => some { src := bytes, pos := bytes.length, container := c }
  | .err _ => none

/-- file_count models ThorArchive::file_count. -/
def file_count (a : ThorArchive) : Nat := a.container.header.file_count

/-- target_grf_name models ThorArchive::target_grf_name. -/
def target_grf_name (a : ThorArchive) : List Nat := a.container.header.target_grf_name

/-- get_file_entry models ThorArchive::get_file_entry. -/
def get_file_entry (a : ThorArchive) (file_path : List Nat) : Option ThorEntry :=
  alookup file_path a.container.entries

/-- get_entries models ThorArchive::get_entries (the spec's list_entries). -/
def get_entries (a : ThorArchive) : List ThorEntry :=
  a.container.entries.map fun p => p.2

/-- seek_from_start models Seek::seek(SeekFrom::Start(off)) on the reader
(always succeeds for a file, even past the end). -/
def seek_from_start (a : ThorArchive) (off : Nat) : ThorArchive := { a with pos := off }

/-- read_exact models Read::read_exact into a buffer of n bytes: succeeds
exactly when n bytes remain at the cursor. -/
def read_exact (a : ThorArchive) (n : Nat) : Option (List Nat × ThorArchive) :=
  if a.pos + n ≤ a.src.length then
    some ((a.src.drop a.pos).take n, { a with pos := a.pos + n })
  else none

/-- read_file_content models ThorArchive::read_file_content: look the entry
up, seek to its offset, read exactly size_compressed bytes, inflate them with
z; every failure is None.  The second component is the archive handle after
the call (the reader cursor may have moved). -/
def read_file_content (z : List Nat → Option (List Nat)) (a : ThorArchive) (file_path : List Nat) :
    Option (List Nat) × ThorArchive :=
  match get_file_entry a file_path with
  | none => (none, a)
  | some e =>
    match read_exact (seek_from_start a e.offset) e.size_compressed with
    | none => (none, seek_from_start a e.offset)
    | some br =>
      match z br.1 with
      | none => (none, br.2)
      | some content => (some content, br.2)

/-- infl_none is a zlib model that always fails (used to instantiate z where
the inflation result is irrelevant or a failing inflation is wanted). -/
def infl_none : List Nat → Option (List Nat) := fun _ => none

/-- infl_empty is a zlib model that accepts exactly the empty stream and
inflates it to nothing. -/
def infl_empty : List Nat → Option (List Nat) := fun bs => if bs = [] then some [] else none

/-- infl_c1 is a zlib model that inflates anything to the four-byte entry
table 0,1,0,0: one deletion-marker entry followed by two trailing bytes that
do not form a complete entry. -/
def infl_c1 : List Nat → Option (List Nat) := fun _ => some [0, 1, 0, 0]

/-- infl_two is a zlib model that inflates anything to the two-byte entry
table 0,1: exactly one deletion-marker entry, fully consumed. -/
def infl_two : List Nat → Option (List Nat) := fun _ => some [0, 1]

/-- sf_input is a single-file archive whose wire file count is 3: magic,
merge 0, count 3, mode 33, empty name, one reserved byte, then one entry of
compressed size 5, decompressed size 7, path "a". -/
def sf_input : List Nat :=
  HEADER_MAGIC ++ [0] ++ [3, 0, 0, 0] ++ [33, 0] ++ [0] ++ [0] ++
  [5, 0, 0, 0] ++ [7, 0, 0, 0] ++ [1] ++ [97]

def entry_sf : ThorEntry :=
  { size_compressed := 5, size_decompressed := 7, relative_path := [97], is_removed := false, offset := 0 }

def cont_sf : ThorContainer :=
  { header := { use_grf_merging := false, file_count := 2, mode := ThorMode.SingleFile, target_grf_name := [] }
  , table := ThorTable.SingleFile { file_table_offset := 0 }
  , entries := [([97], entry_sf)] }

def arch_sf : ThorArchive := { src := sf_input, pos := sf_input.length, container := cont_sf }

/-- mf_input is a multi-file archive: magic, merge 0, count 2, mode 48, empty
name, table descriptor with compressed size 9 and stored offset 40 (exactly
the bytes consumed so far), then one data byte taken as the zlib region. -/
def mf_input : List Nat :=
  HEADER_MAGIC ++ [0] ++ [2, 0, 0, 0] ++ [48, 0] ++ [0] ++ [9, 0, 0, 0] ++ [40, 0, 0, 0] ++ [170]

/-- mf_under is mf_input with the stored table offset 31, smaller than the 40
bytes consumed by header plus descriptor. -/
def mf_under : List Nat :=
  HEADER_MAGIC ++ [0] ++ [2, 0, 0, 0] ++ [48, 0] ++ [0] ++ [9, 0, 0, 0] ++ [31, 0, 0, 0] ++ [170]

/-- inv_input has mode wire value 0, which maps to Invalid. -/
def inv_input : List Nat := HEADER_MAGIC ++ [0] ++ [2, 0, 0, 0] ++ [0, 0] ++ [0]

def hdr_mf : ThorHeader :=
  { use_grf_merging := false, file_count := 1, mode := ThorMode.MultipleFiles, target_grf_name := [] }

def tbl_mf : MultipleFilesTableDesc := { file_table_compressed_size := 9, file_table_offset := 40 }

def tbl_under : MultipleFilesTableDesc := { file_table_compressed_size := 9, file_table_offset := 31 }

/-- entry_rm is the deletion-marker entry with the empty path, as decoded from
the bytes 0,1. -/
def entry_rm : ThorEntry :=
  { size_compressed := 0, size_decompressed := 0, relative_path := [], is_removed := true, offset := 0 }

def cont_c1 : ThorContainer :=
  { header := hdr_mf
  , table := ThorTable.MultipleFiles { file_table_compressed_size := 9, file_table_offset := 0 }
  , entries := [([], entry_rm)] }

def arch_c1 : ThorArchive := { src := mf_input, pos := mf_input.length, container := cont_c1 }

/-- c2_input is a header whose one-byte target name is the byte 128: valid
windows-1252 (the euro sign) but invalid UTF-8. -/
def c2_input : List Nat := HEADER_MAGIC ++ [0] ++ [2, 0, 0, 0] ++ [33, 0] ++ [1] ++ [128]

/-- entry_rm3 is a removed entry under the path "a", as the multi-file decoder
produces it (offset and sizes zero). -/
def entry_rm3 : ThorEntry :=
  { size_compressed := 0, size_decompressed := 0, relative_path := [97], is_removed := true, offset := 0 }

def cont_c3 : ThorContainer :=
  { header := { use_grf_merging := false, file_count := 0, mode := ThorMode.MultipleFiles, target_grf_name := [] }
  , table := ThorTable.MultipleFiles { file_table_compressed_size := 0, file_table_offset := 0 }
  , entries := [([97], entry_rm3)] }

def arch_c3 : ThorArchive := { src := [], pos := 0, container := cont_c3 }

/-- e_dup1 and e_dup2 share the path "a"; e_dup2 is decoded later. -/
def e_dup1 : ThorEntry :=
  { size_compressed := 1, size_decompressed := 1, relative_path := [97], is_removed := false, offset := 1 }

def e_dup2 : ThorEntry :=
  { size_compressed := 2, size_decompressed := 2, relative_path := [97], is_removed := true, offset := 0 }


/-- Helper: a streaming tag consumes exactly its own bytes from a matching
input. -/
theorem tag_append (t r : List Nat) : tag t (t ++ r) = IResult.ok () r := by
  induction t with
  | nil => rfl
  | cons b ts ih => simp [tag, ih]

/-- Helper: streaming take of exactly the length of a leading block returns
that block. -/
theorem takeB_append (xs r : List Nat) : takeB xs.length (xs ++ r) = IResult.ok xs r := by
  induction xs with
  | nil => rfl
  | cons b bs ih => simp [takeB, ih]

/-- Helper: take_str on a leading block reduces to UTF-8 decoding of the
block. -/
theorem take_str_append (nb r : List Nat) :
    take_str nb.length (nb ++ r) =
      match utf8Decode nb with
      | some s => IResult.ok s r
      | none => IResult.err NomErr.error := by
  simp [take_str, takeB_append]

/-- Helper: take_string_ansi on a leading block reduces to windows-1252
decoding of the block. -/
theorem take_string_ansi_append (nb r : List Nat) :
    take_string_ansi nb.length (nb ++ r) =
      match string_from_win_1252 nb with
      | some s => IResult.ok s r
      | none => IResult.err NomErr.error := by
  simp [take_string_ansi, takeB_append]

/-- Helper: the header grammar on a structurally shaped input, symbolically in
every field. -/
theorem header_shape (merge f0 f1 f2 f3 m0 m1 : Nat) (nb rest : List Nat) :
    parse_thor_header (HEADER_MAGIC ++ merge :: f0 :: f1 :: f2 :: f3 :: m0 :: m1 :: nb.length :: (nb ++ rest)) =
      match utf8Decode nb with
      | some s => IResult.ok { use_grf_merging := merge == 1
                             , file_count := decode_file_count (le32val f0 f1 f2 f3)
                             , mode := i16_to_mode (i16val m0 m1)
                             , target_grf_name := s } rest
      | none => IResult.err NomErr.error := by
  simp only [parse_thor_header, tag_append, pbind, le_u8, le_u32, le_i16, take_str_append]
  cases utf8Decode nb <;> rfl

/-- Helper: inversion of pbind success. -/
theorem pbind_ok {α β : Type} {p : IResult α} {f : α → List Nat → IResult β} {c : β} {r : List Nat}
    (h : pbind p f = IResult.ok c r) : ∃ a m, p = IResult.ok a m ∧ f a m = IResult.ok c r := by
  cases p with
  | ok a m => exact ⟨a, m, rfl, h⟩
  | err e => simp [pbind] at h

/-- Helper: a successfully parsed single-file entry always has is_removed
false and offset zero. -/
theorem single_entry_fields {i : List Nat} {e : ThorEntry} {r : List Nat}
    (h : parse_single_file_entry i = IResult.ok e r) : e.is_removed = false ∧ e.offset = 0 := by
  unfold parse_single_file_entry at h
  obtain ⟨a1, m1, h1, h⟩ := pbind_ok h
  obtain ⟨a2, m2, h2, h⟩ := pbind_ok h
  obtain ⟨a3, m3, h3, h⟩ := pbind_ok h
  obtain ⟨a4, m4, h4, h⟩ := pbind_ok h
  simp only [IResult.ok.injEq] at h
  rw [← h.1]
  exact ⟨rfl, rfl⟩

/-- Helper: read_exact never changes the container of the archive handle. -/
theorem read_exact_container {a : ThorArchive} {n : Nat} {br : List Nat × ThorArchive}
    (h : read_exact a n = some br) : br.2.container = a.container := by
  unfold read_exact at h
  split at h
  · simp only [Option.some.injEq] at h
    rw [← h]
  · exact absurd h (by simp)

/-- Helper: a lookup succeeds exactly when the path occurs among the map
keys. -/
theorem alookup_isSome_iff (k : List Nat) (m : List (List Nat × ThorEntry)) :
    (alookup k m).isSome ↔ k ∈ m.map Prod.fst := by
  simp [alookup, List.find?_isSome, List.mem_map]

/-- Helper: looking up the inserted path yields the inserted entry. -/
theorem alookup_insert_self (m : List (List Nat × ThorEntry)) (e : ThorEntry) :
    alookup e.relative_path (insert_entry m e) = some e := by
  unfold insert_entry
  split
  next hp =>
    induction m with
    | nil => simp [alookup] at hp
    | cons q ms ih =>
      by_cases hc : q.1 = e.relative_path
      · simp [alookup, List.find?, hc]
      · have hp' : (alookup e.relative_path ms).isSome = true := by
          simpa [alookup, List.find?, hc] using hp
        simpa [alookup, List.find?, hc] using ih hp'
  next hp =>
    rw [Option.not_isSome_iff_eq_none] at hp
    have hf : (m.find? fun p => decide (p.1 = e.relative_path)) = none := by
      cases hq : m.find? fun p => decide (p.1 = e.relative_path) with
      | none => rfl
      | some x => rw [alookup, hq] at hp; simp at hp
    simp [alookup, List.find?_append, hf, List.find?]

/-- Helper: looking up any other path is unchanged by an insert. -/
theorem alookup_insert_other (m : List (List Nat × ThorEntry)) (e : ThorEntry) (q : List Nat)
    (h : q ≠ e.relative_path) : alookup q (insert_entry m e) = alookup q m := by
  have h' : e.relative_path ≠ q := Ne.symm h
  unfold insert_entry
  split
  next hp =>
    clear hp
    induction m with
    | nil => rfl
    | cons x ms ih =>
      by_cases hc : x.1 = e.relative_path
      · simp only [List.map_cons]
        rw [if_pos hc]
        simp [alookup, List.find?, h', hc] at ih ⊢
        exact ih
      · simp only [List.map_cons]
        rw [if_neg hc]
        by_cases hx : x.1 = q
        · simp [alookup, List.find?, hx]
        · simp [alookup, List.find?, hx] at ih ⊢
          exact ih
  next hp =>
    simp [alookup, List.find?_append, List.find?, h']

/-- Helper: closed form of lookup after insert. -/
theorem alookup_insert (m : List (List Nat × ThorEntry)) (e : ThorEntry) (p : List Nat) :
    alookup p (insert_entry m e) = if e.relative_path = p then some e else alookup p m := by
  by_cases hc : e.relative_path = p
  · rw [if_pos hc, ← hc]
    exact alookup_insert_self m e
  · rw [if_neg hc]
    exact alookup_insert_other m e p fun hq => hc hq.symm

/-- Helper: inserting a path already present leaves the key list unchanged. -/
theorem insert_keys_present (m : List (List Nat × ThorEntry)) (e : ThorEntry)
    (hp : (alookup e.relative_path m).isSome = true) :
    (insert_entry m e).map Prod.fst = m.map Prod.fst := by
  unfold insert_entry
  rw [if_pos hp, List.map_map]
  apply List.map_congr_left
  intro p _
  by_cases hc : p.1 = e.relative_path
  · simp [Function.comp, hc]
  · simp [Function.comp, hc]

/-- Helper: inserting a new path appends it to the key list. -/
theorem insert_keys_absent (m : List (List Nat × ThorEntry)) (e : ThorEntry)
    (hp : ¬ (alookup e.relative_path m).isSome = true) :
    (insert_entry m e).map Prod.fst = m.map Prod.fst ++ [e.relative_path] := by
  unfold insert_entry
  rw [if_neg hp]
  simp

/-- Helper: insert_entry keeps the key list duplicate-free. -/
theorem insert_nodup (m : List (List Nat × ThorEntry)) (e : ThorEntry)
    (h : (m.map Prod.fst).Nodup) : ((insert_entry m e).map Prod.fst).Nodup := by
  by_cases hp : (alookup e.relative_path m).isSome = true
  · rw [insert_keys_present m e hp]
    exact h
  · rw [insert_keys_absent m e hp]
    have hk : e.relative_path ∉ m.map Prod.fst := by
      rw [← alookup_isSome_iff]
      exact fun hx => hp hx
    simp [List.nodup_append, h, hk]

/-- Helper: folding entries into the map resolves a lookup to the last entry
decoded under that path, or to the accumulator when the path never occurs. -/
theorem foldl_insert_lookup (es : List ThorEntry) (acc : List (List Nat × ThorEntry)) (p : List Nat) :
    alookup p (es.foldl insert_entry acc) =
      match es.reverse.find? (fun x => decide (x.relative_path = p)) with
      | some e => some e
      | none => alookup p acc := by
  induction es generalizing acc with
  | nil => simp
  | cons e es ih =>
    simp only [List.foldl_cons, List.reverse_cons]
    rw [ih, List.find?_append]
    cases hf : es.reverse.find? (fun x => decide (x.relative_path = p)) with
    | some x => simp [Option.or]
    | none =>
      rw [alookup_insert]
      by_cases hc : e.relative_path = p <;> simp [hc, List.find?, Option.or]

/-- Helper: the size of the folded map is the number of distinct keys of the
accumulator plus the decoded paths. -/
theorem foldl_insert_length (es : List ThorEntry) (acc : List (List Nat × ThorEntry))
    (h : (acc.map Prod.fst).Nodup) :
    (es.foldl insert_entry acc).length =
      ((acc.map Prod.fst) ++ es.map (fun e => e.relative_path)).toFinset.card := by
  induction es generalizing acc with
  | nil =>
    simp only [List.map_nil, List.append_nil, List.foldl_nil]
    rw [List.card_toFinset, List.Nodup.dedup h, List.length_map]
  | cons e es ih =>
    simp only [List.foldl_cons, List.map_cons]
    rw [ih _ (insert_nodup acc e h)]
    apply congrArg Finset.card
    by_cases hp : (alookup e.relative_path acc).isSome = true
    · rw [insert_keys_present acc e hp]
      have hm : e.relative_path ∈ acc.map Prod.fst := (alookup_isSome_iff _ _).mp hp
      ext x
      simp only [List.mem_toFinset, List.mem_append, List.mem_cons]
      constructor
      · rintro (hx | hx)
        · exact Or.inl hx
        · exact Or.inr (Or.inr hx)
      · rintro (hx | hx | hx)
        · exact Or.inl hx
        · subst hx
          exact Or.inl hm
        · exact Or.inr hx
    · rw [insert_keys_absent acc e hp]
      ext x
      simp only [List.mem_toFinset, List.mem_append, List.mem_cons, List.mem_singleton]
      tauto

/-- Helper: le_u8 consumes exactly one byte. -/
theorem le_u8_len {i : List Nat} {a : Nat} {r : List Nat} (h : le_u8 i = IResult.ok a r) :
    r.length + 1 = i.length := by
  cases i with
  | nil => simp [le_u8] at h
  | cons b bs =>
    simp [le_u8] at h
    rw [← h.2]
    simp

/-- Helper: a successful take never lengthens the remaining input. -/
theorem takeB_le {n : Nat} {i xs r : List Nat} (h : takeB n i = IResult.ok xs r) :
    r.length ≤ i.length := by
  induction n generalizing i xs r with
  | zero =>
    simp [takeB] at h
    rw [← h.2]
  | succ n ih =>
    cases i with
    | nil => simp [takeB] at h
    | cons b bs =>
      simp only [takeB] at h
      split at h
      next ys rr ht =>
        simp only [IResult.ok.injEq] at h
        have h3 := ih ht
        rw [← h.2]
        simp only [List.length_cons]
        omega
      next e ht => simp at h

/-- Helper: a successful take_string_ansi never lengthens the remaining
input. -/
theorem take_string_ansi_le {n : Nat} {i s r : List Nat}
    (h : take_string_ansi n i = IResult.ok s r) : r.length ≤ i.length := by
  unfold take_string_ansi at h
  split at h
  next bs rr ht =>
    split at h
    next s2 hd =>
      simp only [IResult.ok.injEq] at h
      rw [← h.2]
      exact takeB_le ht
    next hd => simp at h
  next e ht => simp at h

/-- Helper: a successful le_u32 never lengthens the remaining input. -/
theorem le_u32_le {i : List Nat} {v : Nat} {r : List Nat} (h : le_u32 i = IResult.ok v r) :
    r.length ≤ i.length := by
  unfold le_u32 at h
  split at h
  · simp only [IResult.ok.injEq] at h
    rw [← h.2]
    simp only [List.length_cons]
    omega
  · simp at h

/-- Helper: a successful le_i32 never lengthens the remaining input. -/
theorem le_i32_le {i : List Nat} {v : Int} {r : List Nat} (h : le_i32 i = IResult.ok v r) :
    r.length ≤ i.length := by
  unfold le_i32 at h
  split at h
  · simp only [IResult.ok.injEq] at h
    rw [← h.2]
    simp only [List.length_cons]
    omega
  · simp at h

/-- Helper: the conditional u32 field never lengthens the remaining input. -/
theorem take_if_not_removed_u32_le {flags : Nat} {i : List Nat} {v : Nat} {r : List Nat}
    (h : take_if_not_removed_u32 flags i = IResult.ok v r) : r.length ≤ i.length := by
  unfold take_if_not_removed_u32 at h
  split at h
  · simp only [IResult.ok.injEq] at h
    rw [← h.2]
  · exact le_u32_le h

/-- Helper: the conditional i32 field never lengthens the remaining input. -/
theorem take_if_not_removed_i32_le {flags : Nat} {i : List Nat} {v : Int} {r : List Nat}
    (h : take_if_not_removed_i32 flags i = IResult.ok v r) : r.length ≤ i.length := by
  unfold take_if_not_removed_i32 at h
  split at h
  · simp only [IResult.ok.injEq] at h
    rw [← h.2]
  · exact le_i32_le h

/-- Helper: every successfully parsed multi-file entry strictly shrinks the
input, so the fold over the inflated table terminates. -/
theorem entry_progress {i : List Nat} {e : ThorEntry} {r : List Nat}
    (h : parse_multiple_files_entry i = IResult.ok e r) : r.length < i.length := by
  unfold parse_multiple_files_entry at h
  obtain ⟨a1, m1, h1, h⟩ := pbind_ok h
  obtain ⟨a2, m2, h2, h⟩ := pbind_ok h
  obtain ⟨a3, m3, h3, h⟩ := pbind_ok h
  obtain ⟨a4, m4, h4, h⟩ := pbind_ok h
  obtain ⟨a5, m5, h5, h⟩ := pbind_ok h
  obtain ⟨a6, m6, h6, h⟩ := pbind_ok h
  simp only [IResult.ok.injEq] at h
  have l1 := le_u8_len h1
  have l2 := take_string_ansi_le h2
  have l3 := le_u8_len h3
  have l4 := take_if_not_removed_u32_le h4
  have l5 := take_if_not_removed_i32_le h5
  have l6 := take_if_not_removed_i32_le h6
  rw [← h.2]
  omega

/-- Helper: the fuel passed to entriesLoop is irrelevant as soon as it
exceeds the input length, because each decoded entry strictly shrinks the
input; the loop is therefore a faithful rendering of fold_many1!'s unbounded
repetition. -/
theorem entriesLoop_fuel : ∀ (n : Nat) (i : List Nat) (m : Nat), i.length ≤ n → i.length ≤ m →
    entriesLoop (n + 1) i = entriesLoop (m + 1) i := by
  intro n
  induction n using Nat.strong_induction_on with
  | _ n ih =>
    intro i m hn hm
    simp only [entriesLoop]
    cases hp : parse_multiple_files_entry i with
    | err e => cases e <;> rfl
    | ok e r =>
      have hlt : r.length < i.length := entry_progress hp
      cases n with
      | zero => exact absurd hn (by omega)
      | succ k =>
        cases m with
        | zero => exact absurd hm (by omega)
        | succ j =>
          have hrw : entriesLoop (k + 1) r = entriesLoop (j + 1) r :=
            ih k (by omega) r j (by omega) (by omega)
          show (match entriesLoop (k + 1) r with
                | IResult.ok es rest => IResult.ok (e :: es) rest
                | IResult.err e2 => IResult.err e2) =
              (match entriesLoop (j + 1) r with
                | IResult.ok es rest => IResult.ok (e :: es) rest
                | IResult.err e2 => IResult.err e2)
          rw [hrw]

/-- Helper: inversion of a successful whole-archive parse: the container is
either the single-entry SingleFile shape or a MultipleFiles container. -/
theorem patch_ok_cases {z : List Nat → Option (List Nat)} {input : List Nat} {cont : ThorContainer}
    {rest : List Nat} (h : parse_thor_patch z input = IResult.ok cont rest) :
    (∃ e : ThorEntry, cont.header.mode = ThorMode.SingleFile ∧
        cont.entries = [(e.relative_path, e)] ∧ e.is_removed = false ∧ e.offset = 0) ∨
    (∃ d : MultipleFilesTableDesc, cont.header.mode = ThorMode.MultipleFiles ∧
        cont.table = ThorTable.MultipleFiles d) := by
  unfold parse_thor_patch at h
  obtain ⟨hdr, i1, hh, h⟩ := pbind_ok h
  cases hm : hdr.mode with
  | Invalid =>
    rw [hm] at h
    simp at h
  | SingleFile =>
    rw [hm] at h
    obtain ⟨tbl, i2, ht, h⟩ := pbind_ok h
    obtain ⟨ent, i3, he, h⟩ := pbind_ok h
    simp only [IResult.ok.injEq] at h
    obtain ⟨hf, ho⟩ := single_entry_fields he
    left
    refine ⟨ent, ?_, ?_, hf, ho⟩
    · rw [← h.1]
      exact hm
    · rw [← h.1]
  | MultipleFiles =>
    rw [hm] at h
    obtain ⟨tbl, i2, ht, h⟩ := pbind_ok h
    right
    split at h
    · simp at h
    · split at h
      · split at h
        · simp at h
        · split at h
          · simp only [IResult.ok.injEq] at h
            refine ⟨{ file_table_compressed_size := tbl.file_table_compressed_size
                    , file_table_offset := tbl.file_table_offset - (input.length - i2.length) }, ?_, ?_⟩
            · rw [← h.1]
              exact hm
            · rw [← h.1]
          · simp at h
      · simp at h

/-- Helper: inversion of a successful open: the archive's container comes
from a successful whole-archive parse. -/
theorem thor_new_ok {z : List Nat → Option (List Nat)} {bytes : List Nat} {a : ThorArchive}
    (h : thor_archive_new z bytes = some a) :
    ∃ rest, parse_thor_patch z bytes = IResult.ok a.container rest := by
  unfold thor_archive_new at h
  split at h
  next c r hp =>
    simp only [Option.some.injEq] at h
    refine ⟨r, ?_⟩
    rw [← h]
    exact hp
  next e hp => simp at h

/-- Claim C2, counterexample: the one-byte name 128 decodes under strict
windows-1252 (to the euro sign 8364), yet the header parse fails, because the
source decodes the target store name with take_str (UTF-8), not with the
windows-1252 String Decoder. -/
theorem C2_counterexample :
    string_from_win_1252 [128] = some [8364] ∧
    parse_thor_header c2_input = IResult.err NomErr.error := by
  exact ⟨by decide, by decide⟩

/-- Claim C2, amended: the target store name is decoded via strict UTF-8
(take_str): the header parse yields the UTF-8 decoding of the name bytes
exactly when they are valid UTF-8 and fails with a recoverable decode error
otherwise; windows-1252 plays no role in the header. -/
theorem C2_utf8_name (merge f0 f1 f2 f3 m0 m1 : Nat) (nb rest : List Nat) :
    parse_thor_header (HEADER_MAGIC ++ merge :: f0 :: f1 :: f2 :: f3 :: m0 :: m1 :: nb.length :: (nb ++ rest)) =
      match utf8Decode nb with
      | some s => IResult.ok { use_grf_merging := merge == 1
                             , file_count := decode_file_count (le32val f0 f1 f2 f3)
                             , mode := i16_to_mode (i16val m0 m1)
                             , target_grf_name := s } rest
      | none => IResult.err NomErr.error :=
  header_shape merge f0 f1 f2 f3 m0 m1 nb rest

/-- Claim C7: the decoded file_count equals the 4-byte unsigned little-endian
wire value minus one (u32 subtraction wraps modulo 2^32, so the decode is
meaningful exactly when the wire value is at least 1). -/
theorem C7_file_count_decode (f0 f1 f2 f3 : Nat) (rest : List Nat)
    (h0 : f0 < 256) (h1 : f1 < 256) (h2 : f2 < 256) (h3 : f3 < 256)
    (hw : 1 ≤ le32val f0 f1 f2 f3) :
    decode_file_count (le32val f0 f1 f2 f3) = le32val f0 f1 f2 f3 - 1 ∧
    parse_thor_header (HEADER_MAGIC ++ 0 :: f0 :: f1 :: f2 :: f3 :: 33 :: 0 :: 0 :: rest) =
      IResult.ok { use_grf_merging := false
                 , file_count := le32val f0 f1 f2 f3 - 1
                 , mode := ThorMode.SingleFile
                 , target_grf_name := [] } rest := by
  have harith : decode_file_count (le32val f0 f1 f2 f3) = le32val f0 f1 f2 f3 - 1 := by
    simp only [decode_file_count, le32val] at hw ⊢
    omega
  refine ⟨harith, ?_⟩
  have h := header_shape 0 f0 f1 f2 f3 33 0 [] rest
  simp only [List.length_nil, List.nil_append] at h
  refine h.trans ?_
  show IResult.ok ({ use_grf_merging := 0 == 1
                   , file_count := decode_file_count (le32val f0 f1 f2 f3)
                   , mode := i16_to_mode (i16val 33 0)
                   , target_grf_name := [] } : ThorHeader) rest =
       IResult.ok ({ use_grf_merging := false
                   , file_count := le32val f0 f1 f2 f3 - 1
                   , mode := ThorMode.SingleFile
                   , target_grf_name := [] } : ThorHeader) rest
  have em : i16_to_mode (i16val 33 0) = ThorMode.SingleFile := by decide
  have eb : (0 == 1) = false := by decide
  rw [harith, em, eb]

/-- Claim C7 witness at wire value 3. -/
theorem C7_witness :
    decode_file_count (le32val 3 0 0 0) = le32val 3 0 0 0 - 1 ∧
    parse_thor_header (HEADER_MAGIC ++ 0 :: 3 :: 0 :: 0 :: 0 :: 33 :: 0 :: 0 :: ([] : List Nat)) =
      IResult.ok { use_grf_merging := false
                 , file_count := le32val 3 0 0 0 - 1
                 , mode := ThorMode.SingleFile
                 , target_grf_name := [] } [] :=
  C7_file_count_decode 3 0 0 0 [] (by decide) (by decide) (by decide) (by decide) (by decide)

/-- Claim C6: in a multi-file entry record, after path length, path bytes and
the flags byte, a set LSB makes the decoder consume no further bytes and
produce a removed entry with offset and sizes zero, while a clear LSB makes
it consume offset u32LE, size_compressed i32LE and size_decompressed i32LE in
that order with is_removed false. -/
theorem C6_entry_flags_layout (p s : List Nat) (hp : string_from_win_1252 p = some s) :
    (∀ (flags : Nat) (rest : List Nat), is_file_removed flags = true →
      parse_multiple_files_entry (p.length :: (p ++ flags :: rest)) =
        IResult.ok { size_compressed := 0, size_decompressed := 0, relative_path := s
                   , is_removed := true, offset := 0 } rest) ∧
    (∀ (flags o0 o1 o2 o3 c0 c1 c2 c3 d0 d1 d2 d3 : Nat) (rest : List Nat),
      is_file_removed flags = false →
      parse_multiple_files_entry
          (p.length :: (p ++ flags :: o0 :: o1 :: o2 :: o3 :: c0 :: c1 :: c2 :: c3 :: d0 :: d1 :: d2 :: d3 :: rest)) =
        IResult.ok { size_compressed := i32_as_usize (toI32 (le32val c0 c1 c2 c3))
                   , size_decompressed := i32_as_usize (toI32 (le32val d0 d1 d2 d3))
                   , relative_path := s
                   , is_removed := false
                   , offset := le32val o0 o1 o2 o3 } rest) := by
  constructor
  · intro flags rest hf
    simp [parse_multiple_files_entry, pbind, le_u8, take_string_ansi_append, hp,
      take_if_not_removed_u32, take_if_not_removed_i32, hf, i32_as_usize]
  · intro flags o0 o1 o2 o3 c0 c1 c2 c3 d0 d1 d2 d3 rest hf
    simp [parse_multiple_files_entry, pbind, le_u8, take_string_ansi_append, hp,
      take_if_not_removed_u32, take_if_not_removed_i32, hf, le_u32, le_i32]

/-- Claim C6 witness: a removed entry at path "a" consumes nothing after the
flags byte; a kept entry consumes offset 1 and sizes 2 and 3. -/
theorem C6_witness :
    parse_multiple_files_entry [1, 97, 1] =
      IResult.ok { size_compressed := 0, size_decompressed := 0, relative_path := [97]
                 , is_removed := true, offset := 0 } [] ∧
    parse_multiple_files_entry [1, 97, 0, 1, 0, 0, 0, 2, 0, 0, 0, 3, 0, 0, 0] =
      IResult.ok { size_compressed := 2, size_decompressed := 3, relative_path := [97]
                 , is_removed := false, offset := 1 } [] := by
  constructor
  · exact (C6_entry_flags_layout [97] [97] (by decide)).1 1 [] (by decide)
  · exact (C6_entry_flags_layout [97] [97] (by decide)).2 0 1 0 0 0 2 0 0 0 3 0 0 0 [] (by decide)

/-- Claim C9: the 2-byte signed mode selector decodes to SingleFile exactly
at 33 and to MultipleFiles exactly at 48, everything else is Invalid; an
Invalid mode aborts the whole parse with a fatal failure, and open never
returns an archive whose container mode is Invalid. -/
theorem C9_mode_mapping :
    (∀ i : Int, (i16_to_mode i = ThorMode.SingleFile ↔ i = 33) ∧
      (i16_to_mode i = ThorMode.MultipleFiles ↔ i = 48) ∧
      (i16_to_mode i = ThorMode.Invalid ↔ (i ≠ 33 ∧ i ≠ 48))) ∧
    (∀ (z : List Nat → Option (List Nat)) (input : List Nat) (header : ThorHeader) (i1 : List Nat),
      parse_thor_header input = IResult.ok header i1 → header.mode = ThorMode.Invalid →
      parse_thor_patch z input = IResult.err NomErr.failure) ∧
    (∀ (z : List Nat → Option (List Nat)) (bytes : List Nat) (a : ThorArchive),
      thor_archive_new z bytes = some a → a.container.header.mode ≠ ThorMode.Invalid) := by
  refine ⟨?_, ?_, ?_⟩
  · intro i
    refine ⟨?_, ?_, ?_⟩ <;> unfold i16_to_mode <;> split_ifs with h1 h2 <;> simp_all
  · intro z input header i1 hh hm
    unfold parse_thor_patch
    rw [hh]
    simp only [pbind]
    rw [hm]
  · intro z bytes a h
    obtain ⟨rest, hp⟩ := thor_new_ok h
    rcases patch_ok_cases hp with ⟨e, hmode, _⟩ | ⟨d, hmode, _⟩ <;> rw [hmode] <;> simp

/-- Claim C9 witness: a wire mode of 0 aborts a concrete parse fatally, and
the container of a concretely opened single-file archive has a mode other
than Invalid. -/
theorem C9_witness :
    parse_thor_patch infl_none inv_input = IResult.err NomErr.failure ∧
    arch_sf.container.header.mode ≠ ThorMode.Invalid := by
  constructor
  · exact C9_mode_mapping.2.1 infl_none inv_input
      { use_grf_merging := false, file_count := 1, mode := ThorMode.Invalid, target_grf_name := [] } []
      (by decide) (by decide)
  · exact C9_mode_mapping.2.2 infl_none sf_input arch_sf (by decide)

/-- Claim C1, counterexample: open accepts a concrete multi-file archive
whose inflated entry table is 0,1,0,0, although decoding entries consumes
only the first two bytes and leaves the two bytes 0,0 unconsumed: leftover
bytes after the last decoded entry do not fail the open. -/
theorem C1_counterexample :
    thor_archive_new infl_c1 mf_input = some arch_c1 ∧
    infl_c1 [170] = some [0, 1, 0, 0] ∧
    parse_multiple_files_entries [0, 1, 0, 0] = IResult.ok [([], entry_rm)] [0, 0] := by
  exact ⟨by decide, rfl, by decide⟩

/-- Claim C1, amended: decoding the inflated table is greedy, not exact: when
the first entry decodes and the next attempt fails with a recoverable error,
the fold succeeds and simply reports the leftover bytes, which the caller
discards; the whole parse fails with the entry-table error only when the
first entry cannot be decoded or a later attempt fails
unrecoverably (for example Incomplete from truncated path bytes). -/
theorem C1_leftover_ignored (i : List Nat) (e : ThorEntry) (r : List Nat)
    (h1 : parse_multiple_files_entry i = IResult.ok e r)
    (h2 : parse_multiple_files_entry r = IResult.err NomErr.error) :
    parse_multiple_files_entries i = IResult.ok (entryFold [e]) r := by
  unfold parse_multiple_files_entries
  rw [h1]
  have hl : entriesLoop (r.length + 1) r = IResult.ok [] r := by
    simp only [entriesLoop]
    rw [h2]
  show (match entriesLoop (r.length + 1) r with
        | IResult.ok es rest => IResult.ok (entryFold (e :: es)) rest
        | IResult.err e2 => IResult.err e2) = IResult.ok (entryFold [e]) r
  rw [hl]

/-- Claim C1 witness: the inflated table 0,1,0,0 decodes to the single
deletion entry with leftover 0,0. -/
theorem C1_witness :
    parse_multiple_files_entries [0, 1, 0, 0] = IResult.ok (entryFold [entry_rm]) [0, 0] :=
  C1_leftover_ignored [0, 1, 0, 0] entry_rm [0, 0] (by decide) (by decide)

/-- Claim C8: folding a decoded entry sequence into the map collapses
duplicate paths with last-wins overwrite: the map size is the number of
distinct decoded paths, and each path maps to the last entry decoded under
it. -/
theorem C8_last_wins (es : List ThorEntry) :
    (entryFold es).length = (es.map (fun e => e.relative_path)).dedup.length ∧
    ∀ (p : List Nat) (e : ThorEntry),
      es.reverse.find? (fun x => decide (x.relative_path = p)) = some e →
      alookup p (entryFold es) = some e := by
  constructor
  · have h := foldl_insert_length es [] (by simp)
    simpa [entryFold, List.card_toFinset] using h
  · intro p e hf
    have h := foldl_insert_lookup es [] p
    rw [hf] at h
    exact h

/-- Claim C8 witness: two entries sharing the path "a" collapse to one map
binding holding the later entry. -/
theorem C8_witness :
    (entryFold [e_dup1, e_dup2]).length = 1 ∧
    alookup [97] (entryFold [e_dup1, e_dup2]) = some e_dup2 := by
  constructor
  · exact (C8_last_wins [e_dup1, e_dup2]).1.trans (by decide)
  · exact (C8_last_wins [e_dup1, e_dup2]).2 [97] e_dup2 (by decide)

/-- Claim C5: in MultipleFiles mode, a stored table offset smaller than the
bytes consumed by header plus descriptor makes the whole parse fail fatally
and no container is produced; otherwise any produced container locates the
table at the stored offset minus the consumed bytes. -/
theorem C5_table_offset (z : List Nat → Option (List Nat)) (input : List Nat)
    (header : ThorHeader) (i1 : List Nat) (table : MultipleFilesTableDesc) (i2 : List Nat)
    (hh : parse_thor_header input = IResult.ok header i1)
    (hm : header.mode = ThorMode.MultipleFiles)
    (ht : parse_multiple_files_table i1 = IResult.ok table i2) :
    (table.file_table_offset < input.length - i2.length →
      parse_thor_patch z input = IResult.err NomErr.failure) ∧
    (∀ (cont : ThorContainer) (rest : List Nat),
      parse_thor_patch z input = IResult.ok cont rest →
      cont.table = ThorTable.MultipleFiles
        { file_table_compressed_size := table.file_table_compressed_size
        , file_table_offset := table.file_table_offset - (input.length - i2.length) }) := by
  constructor
  · intro hlt
    unfold parse_thor_patch
    rw [hh]
    simp only [pbind]
    rw [hm]
    simp [ht, pbind, hlt]
  · intro cont rest hok
    unfold parse_thor_patch at hok
    rw [hh] at hok
    simp only [pbind] at hok
    rw [hm] at hok
    simp only [ht, pbind] at hok
    split at hok
    · simp at hok
    · split at hok
      · split at hok
        · simp at hok
        · split at hok
          · simp only [IResult.ok.injEq] at hok
            rw [← hok.1]
          · simp at hok
      · simp at hok

/-- Claim C5 witness: the archive with stored offset 31 (consumed bytes 40)
fails fatally, and the accepted archive with stored offset 40 records the
re-based offset 0 in its container. -/
theorem C5_witness :
    parse_thor_patch infl_two mf_under = IResult.err NomErr.failure ∧
    cont_c1.table = ThorTable.MultipleFiles { file_table_compressed_size := 9, file_table_offset := 0 } := by
  constructor
  · exact (C5_table_offset infl_two mf_under hdr_mf [9, 0, 0, 0, 31, 0, 0, 0, 170] tbl_under [170]
      (by decide) (by decide) (by decide)).1 (by decide)
  · exact (C5_table_offset infl_two mf_input hdr_mf [9, 0, 0, 0, 40, 0, 0, 0, 170] tbl_mf [170]
      (by decide) (by decide) (by decide)).2 cont_c1 [] (by decide)

/-- Claim C4, counterexample: open accepts a single-file archive whose wire
file count is 3; file_count() then returns 2, not 1: nothing ties the header
count to the single entry. -/
theorem C4_counterexample :
    thor_archive_new infl_none sf_input = some arch_sf ∧
    arch_sf.container.header.mode = ThorMode.SingleFile ∧
    file_count arch_sf = 2 ∧ file_count arch_sf ≠ 1 := by
  exact ⟨by decide, rfl, rfl, by decide⟩

/-- Claim C4, amended: for every archive accepted in SingleFile mode,
list_entries yields exactly one entry, with is_removed false and offset 0 at
decode time; file_count() merely reports the decoded header count (wire value
minus one), which need not be 1. -/
theorem C4_single_mode (z : List Nat → Option (List Nat)) (input : List Nat) (a : ThorArchive)
    (h : thor_archive_new z input = some a)
    (hm : a.container.header.mode = ThorMode.SingleFile) :
    file_count a = a.container.header.file_count ∧
    (get_entries a).length = 1 ∧
    ∀ e, e ∈ get_entries a → e.is_removed = false ∧ e.offset = 0 := by
  obtain ⟨rest, hp⟩ := thor_new_ok h
  rcases patch_ok_cases hp with ⟨e, hmode, hent, hrem, hoff⟩ | ⟨d, hmode, _⟩
  · refine ⟨rfl, ?_, ?_⟩
    · unfold get_entries
      rw [hent]
      rfl
    · intro x hx
      unfold get_entries at hx
      rw [hent] at hx
      simp at hx
      rw [hx]
      exact ⟨hrem, hoff⟩
  · rw [hmode] at hm
    exact ThorMode.noConfusion hm

/-- Claim C4 witness at the concrete accepted single-file archive. -/
theorem C4_witness :
    file_count arch_sf = arch_sf.container.header.file_count ∧
    (get_entries arch_sf).length = 1 ∧
    (entry_sf.is_removed = false ∧ entry_sf.offset = 0) := by
  have h := C4_single_mode infl_none sf_input arch_sf (by decide) (by decide)
  exact ⟨h.1, h.2.1, h.2.2 entry_sf (by decide)⟩

/-- Claim C3, counterexample: read_file_content has no distinct EntryRemoved
outcome.  On a container holding a removed entry at path "a": with a zlib
model that rejects the empty stream the call returns none, exactly the result
of the absent path "b"; with a zlib model that accepts the empty stream it
returns the byte sequence some [].  Either way the claim fails. -/
theorem C3_counterexample :
    alookup [97] cont_c3.entries = some entry_rm3 ∧
    entry_rm3.is_removed = true ∧
    (read_file_content infl_none arch_c3 [97]).1 = none ∧
    alookup [98] cont_c3.entries = none ∧
    (read_file_content infl_none arch_c3 [98]).1 = none ∧
    (read_file_content infl_empty arch_c3 [97]).1 = some [] := by
  exact ⟨by decide, rfl, by decide, by decide, by decide, by decide⟩

/-- Claim C3, amended: read_file_content never checks is_removed; for a
removed entry as the decoder produces it (offset 0, size_compressed 0) it
seeks to 0, reads zero bytes and returns exactly the zlib inflation of the
empty buffer, in the same Option type as every other outcome — when that
inflation fails, the result is none, indistinguishable from an absent path. -/
theorem C3_removed_inflates_empty (z : List Nat → Option (List Nat)) (a : ThorArchive)
    (path : List Nat) (e : ThorEntry)
    (hl : get_file_entry a path = some e)
    (_hrem : e.is_removed = true)
    (hoff : e.offset = 0)
    (hsz : e.size_compressed = 0) :
    (read_file_content z a path).1 = z [] := by
  unfold read_file_content
  split
  next heq =>
    rw [hl] at heq
    simp at heq
  next e2 heq =>
    rw [hl] at heq
    injection heq with he
    subst he
    rw [hoff, hsz]
    have hre : read_exact (seek_from_start a 0) 0 = some ([], { a with pos := 0 }) := by
      unfold read_exact seek_from_start
      simp
    rw [hre]
    cases hz : z [] <;> simp [hz]

/-- Claim C3 witness at the concrete removed entry. -/
theorem C3_witness :
    (read_file_content infl_none arch_c3 [97]).1 = infl_none [] :=
  C3_removed_inflates_empty infl_none arch_c3 [97] entry_rm3 (by decide) rfl rfl rfl

/-- Claim C10: read_file_content never changes the container: the header, the
table descriptor and the whole path-to-entry map are those of the archive
before the call, whether the call returns bytes or fails. -/
theorem C10_read_frame (z : List Nat → Option (List Nat)) (a : ThorArchive) (path : List Nat) :
    ((read_file_content z a path).2).container = a.container := by
  unfold read_file_content
  split
  next => rfl
  next e heq =>
    split
    next => rfl
    next br heq2 =>
      have hc := read_exact_container heq2
      split
      next => exact hc
      next content => exact hc
